import Mathlib

/-!
Verification development for the folder-synchronization program
(`src/source/main.py`, duplicated in `src/replica/main.py`).

The program state is modelled as a pair of directory trees (source root and
replica root).  File contents are byte lists (`List Nat`), modification
times are integers (the program only compares mtimes and differences
against the constant 1, so integer timestamps capture every comparison the
code performs; directory mtimes, which the code can only touch in a
file/directory name-collision edge case outside the scope of this
development, are modelled as 0).

The path-string manipulation of the original
(`root.replace(source_path, replica_path)` and
`os.path.join` / `os.path.relpath`) is modelled by relative paths
(`List String` of path components): `replace` of the root prefix is exact
root swapping whenever the root strings do not occur inside relative
paths, which is the situation in every theorem below.

Every mutating filesystem call (`os.makedirs`, `shutil.copy2`,
`os.remove`, `shutil.copyfile`) is journalled as an `Op` and applied
through `applyOp`; every `logging.info`/`print` pair is journalled as a
`LogEvent`.  Python exceptions are modelled by an `Option Err` field that,
once set, suppresses all further effects (the uncaught exception kills the
process), while the filesystem keeps the mutations applied so far.
I/O failures (permission denied and similar) are injected through a `bad`
list of root-tagged paths on which reads fail.
-/

namespace FolderSync

/-- Which of the two directory roots a path is relative to. -/
inductive RootTag where
  | source
  | replica
deriving DecidableEq

/-- Modelled Python exceptions: `FileNotFoundError` from `os.listdir` on a
missing directory, and a collapsed `ioError` for every other `OSError`
(permission denied, `IsADirectoryError`, ...). -/
inductive Err where
  | fileNotFound
  | ioError
deriving DecidableEq

mutual
/-- A filesystem node: a regular file with its content bytes and
modification time, or a directory with its ordered entry list (the order
models the enumeration order of `os.listdir` / `os.walk`). -/
inductive Node where
  | file (content : List Nat) (mtime : Int)
  | dir (entries : EntList)
deriving DecidableEq

/-- Ordered association list of named directory entries. -/
inductive EntList where
  | nil
  | cons (name : String) (node : Node) (rest : EntList)
deriving DecidableEq
end

/-- The two roots the program works on.  The replica root is optional:
`none` models a non-existent replica directory (the first-run situation
claim C4 is about).  The source root is always present (a missing source
makes every cycle crash immediately and is outside all claims). -/
structure FS where
  src : Node
  rep : Option Node
deriving DecidableEq

/-- Journalled mutating filesystem actions, in execution order:
`makeDir` for each directory actually created by `os.makedirs`,
`copy2` for `shutil.copy2` (content plus source mtime),
`copyfile` for `shutil.copyfile` (content only; mtime becomes the time of
copying), `removeFile` for `os.remove`. -/
inductive Op where
  | makeDir (root : RootTag) (path : List String)
  | copy2 (root : RootTag) (path : List String) (content : List Nat) (mtime : Int)
  | copyfile (root : RootTag) (path : List String) (content : List Nat) (mtime : Int)
  | removeFile (root : RootTag) (path : List String)
deriving DecidableEq

/-- The root a journalled operation targets. -/
def Op.rootTag : Op → RootTag
  | .makeDir r _ => r
  | .copy2 r _ _ _ => r
  | .copyfile r _ _ _ => r
  | .removeFile r _ => r

/-- Journalled log events (each models one `logging.*` call of the
program, together with its twin `print` where present). -/
inductive LogEvent where
  | fileCopied (path : List String)
  | fileRemoved (path : List String)
  | newFileDetected (name : String)
  | fileModifiedDetected (name : String)
  | syncCompleteLogged
  | sourceHashLogged (digest : List Nat)
  | foldersSynchronized
deriving DecidableEq

/-- The `events` dictionary built by `check_for_events`. -/
structure Events where
  newFiles : List String
  modified : List String
  removed : List String
deriving DecidableEq

/-- True when all three event lists are empty, i.e. when
`check_for_events` does not call `sync_folders`. -/
def Events.isEmpty (e : Events) : Bool :=
  e.newFiles.isEmpty && e.modified.isEmpty && e.removed.isEmpty

/-- Look up a directory entry by name (first match in enumeration order). -/
def EntList.get : EntList → String → Option Node
  | .nil, _ => none
  | .cons n nd rest, target => if n = target then some nd else rest.get target

/-- Replace the entry named `target` in place, or append it at the end of
the enumeration order if absent (a newly created file or directory shows
up at the end of the directory listing). -/
def EntList.set : EntList → String → Node → EntList
  | .nil, target, v => .cons target v .nil
  | .cons n nd rest, target, v =>
      if n = target then .cons n v rest else .cons n nd (rest.set target v)

/-- Delete the entry named `target` (first match). -/
def EntList.erase : EntList → String → EntList
  | .nil, _ => .nil
  | .cons n nd rest, target => if n = target then rest else .cons n nd (rest.erase target)

/-- The names in enumeration order: `os.listdir`. -/
def EntList.names : EntList → List String
  | .nil => []
  | .cons n _ rest => n :: rest.names

/-- Resolve a relative path inside a node. -/
def Node.atPath : Node → List String → Option Node
  | n, [] => some n
  | .file _ _, _ :: _ => none
  | .dir es, x :: xs =>
      match es.get x with
      | some child => child.atPath xs
      | none => none

/-- Create one directory at `path` whose parent already exists
(`os.makedirs` issues one such creation per missing component; an
existing directory is fine — `exist_ok=True` — while an existing file of
the same name raises). -/
def Node.mkdirAt : Node → List String → Except Err Node
  | .dir es, [] => .ok (.dir es)
  | .dir es, [x] =>
      match es.get x with
      | none => .ok (.dir (es.set x (.dir .nil)))
      | some (.dir _) => .ok (.dir es)
      | some (.file _ _) => .error .ioError
  | .dir es, x :: y :: ys =>
      match es.get x with
      | some child => (child.mkdirAt (y :: ys)).map fun c => .dir (es.set x c)
      | none => .error .ioError
  | .file _ _, _ => .error .ioError

/-- Write a file at `path` (the parent directory must exist): replacement
in place if a file of that name exists, append otherwise, error if a
directory of that name is in the way. -/
def Node.writeFileAt : Node → List String → List Nat → Int → Except Err Node
  | .dir es, [x], c, m =>
      match es.get x with
      | some (.dir _) => .error .ioError
      | _ => .ok (.dir (es.set x (.file c m)))
  | .dir es, x :: y :: ys, c, m =>
      match es.get x with
      | some child => (child.writeFileAt (y :: ys) c m).map fun c2 => .dir (es.set x c2)
      | none => .error .ioError
  | _, _, _, _ => .error .ioError

/-- Remove the file at `path` (`os.remove`): error on a missing entry or
on a directory. -/
def Node.removeFileAt : Node → List String → Except Err Node
  | .dir es, [x] =>
      match es.get x with
      | some (.file _ _) => .ok (.dir (es.erase x))
      | some (.dir _) => .error .ioError
      | none => .error .fileNotFound
  | .dir es, x :: y :: ys =>
      match es.get x with
      | some child => (child.removeFileAt (y :: ys)).map fun c2 => .dir (es.set x c2)
      | none => .error .fileNotFound
  | _, _ => .error .ioError

/-- The tree rooted at the given tag (`none` = the root does not exist). -/
def FS.tree : FS → RootTag → Option Node
  | fs, .source => some fs.src
  | fs, .replica => fs.rep

/-- Replace the tree rooted at the given tag. -/
def FS.setTree : FS → RootTag → Node → FS
  | fs, .source, t => { fs with src := t }
  | fs, .replica, t => { fs with rep := some t }

/-- Apply one journalled operation to the filesystem. -/
def applyOp (op : Op) (fs : FS) : Except Err FS :=
  match op with
  | .makeDir r p =>
      match fs.tree r with
      | none => if p = [] then .ok (fs.setTree r (.dir .nil)) else .error .fileNotFound
      | some t => (t.mkdirAt p).map (fs.setTree r)
  | .copy2 r p c m =>
      match fs.tree r with
      | none => .error .fileNotFound
      | some t => (t.writeFileAt p c m).map (fs.setTree r)
  | .copyfile r p c m =>
      match fs.tree r with
      | none => .error .fileNotFound
      | some t => (t.writeFileAt p c m).map (fs.setTree r)
  | .removeFile r p =>
      match fs.tree r with
      | none => .error .fileNotFound
      | some t => (t.removeFileAt p).map (fs.setTree r)

/-- `os.path.exists` for a root-relative path. -/
def pathExists (fs : FS) (r : RootTag) (p : List String) : Bool :=
  ((fs.tree r).bind fun t => t.atPath p).isSome

/-- `os.stat(...).st_mtime` / `os.path.getmtime` for a root-relative path
(directories are modelled with mtime 0; only queried on existing paths). -/
def mtimeAt (fs : FS) (r : RootTag) (p : List String) : Int :=
  match (fs.tree r).bind fun t => t.atPath p with
  | some (.file _ m) => m
  | _ => 0

/-- Execution state of one reconciliation cycle: the filesystem, the
journal of mutating operations performed, the journal of log events
emitted, and the pending uncaught exception (once set, every further
effect is suppressed — the Python process has crashed). -/
structure St where
  fs : FS
  ops : List Op
  logs : List LogEvent
  err : Option Err

/-- Fresh state at the start of a cycle. -/
def St.init (fs : FS) : St := ⟨fs, [], [], none⟩

/-- Perform one mutating operation: apply it to the filesystem and record
it, or record the raised exception. -/
def St.emit (st : St) (op : Op) : St :=
  match st.err with
  | some _ => st
  | none =>
      match applyOp op st.fs with
      | .ok fs2 => { st with fs := fs2, ops := st.ops ++ [op] }
      | .error e => { st with err := some e }

/-- Emit one log event (suppressed after a crash). -/
def St.log (st : St) (e : LogEvent) : St :=
  match st.err with
  | some _ => st
  | none => { st with logs := st.logs ++ [e] }

/-- Emit several log events in order. -/
def St.logMany (st : St) (es : List LogEvent) : St :=
  es.foldl St.log st

/-- Record a raised exception (the first one wins). -/
def St.fail (st : St) (e : Err) : St :=
  match st.err with
  | some _ => st
  | none => { st with err := some e }

/-- The file at a replica-relative path after a run, for stating
theorems. -/
def repAt (st : St) (p : List String) : Option Node :=
  match st.fs.rep with
  | none => none
  | some t => t.atPath p

/-- `os.makedirs(path, exist_ok=True)` relative to the replica root:
creates the replica root itself if missing, then each missing component
in order, journalling one `makeDir` per directory actually created. -/
def doMkdirsFrom (st : St) (sofar : List String) : List String → St
  | [] => st
  | x :: xs =>
      doMkdirsFrom
        (if pathExists st.fs .replica (sofar ++ [x]) then st
         else st.emit (.makeDir .replica (sofar ++ [x])))
        (sofar ++ [x]) xs

/-- See `doMkdirsFrom`; `p` is the full replica-relative directory path. -/
def doMakedirs (st : St) (p : List String) : St :=
  doMkdirsFrom (if st.fs.rep.isNone then st.emit (.makeDir .replica []) else st) [] p

/-- The files of one directory level in enumeration order, as
`(relative path, content, mtime)` triples — the `files` component of one
`os.walk` yield. -/
def levelFiles : EntList → List String → List (List String × List Nat × Int)
  | .nil, _ => []
  | .cons n (.file c m) rest, rel => (rel ++ [n], c, m) :: levelFiles rest rel
  | .cons _ (.dir _) rest, rel => levelFiles rest rel

mutual
/-- The files contributed by the subdirectories of a level, in `os.walk`
top-down order (each subdirectory's own files first, then its
subdirectories, recursively). -/
def walkSub : EntList → List String → List (List String × List Nat × Int)
  | .nil, _ => []
  | .cons n nd rest, rel => walkSubNode nd (rel ++ [n]) ++ walkSub rest rel

/-- Files of one entry: nothing for a file entry (it was already listed
at its own level), the full walk for a directory entry. -/
def walkSubNode : Node → List String → List (List String × List Nat × Int)
  | .file _ _, _ => []
  | .dir es, rel => levelFiles es rel ++ walkSub es rel
end

/-- All files below a root in `os.walk` order.  `os.walk` of a path that
is a regular file yields nothing. -/
def walkFiles : Node → List (List String × List Nat × Int)
  | .file _ _ => []
  | .dir es => levelFiles es [] ++ walkSub es []

/-- `os.walk` of a missing root silently yields nothing. -/
def optWalk : Option Node → List (List String × List Nat × Int)
  | none => []
  | some t => walkFiles t

/-- The `f.read(4096)` loop of `get_folder_hash`: split a file's bytes
into successive chunks of at most 4096 (the fuel argument, instantiated
with the length, makes the recursion structural). -/
def readChunksAux : Nat → List Nat → List (List Nat)
  | 0, _ => []
  | _ + 1, [] => []
  | n + 1, x :: xs => (x :: xs).take 4096 :: readChunksAux n ((x :: xs).drop 4096)

/-- Chunked read of one file's content, as performed by
`get_folder_hash`. -/
def readChunks (l : List Nat) : List (List Nat) := readChunksAux l.length l

/-- The `for file in files: while True: hash.update(data)` loop of
`get_folder_hash`, over the precomputed walk.  The model tracks the byte
stream fed to the MD5 object (`hash.update` appends the chunk to that
stream); the program's digest is the fixed MD5 function of this stream,
so two digests are equal whenever the streams are and differ whenever the
streams do (modulo MD5 collisions, which are outside the model).  A file
in `bad` fails to open and raises. -/
def hashLoop (bad : List (RootTag × List String)) (r : RootTag) (acc : List Nat) :
    List (List String × List Nat × Int) → Except Err (List Nat)
  | [] => .ok acc
  | (p, c, _) :: rest =>
      if (r, p) ∈ bad then .error .ioError
      else hashLoop bad r ((readChunks c).foldl (fun s ch => s ++ ch) acc) rest

/-- `get_folder_hash(folder)`: the MD5 input stream accumulated over the
walk of the given root. -/
def getFolderHash (bad : List (RootTag × List String)) (r : RootTag)
    (root : Option Node) : Except Err (List Nat) :=
  hashLoop bad r [] (optWalk root)

/-- Modelled from the spec of `get_folder_hash` in words: the
concatenation of the file contents in walk order.  Used in claim C10 to
compare the code's chunked accumulation against it. -/
def contentStream (t : Node) : List Nat :=
  ((walkFiles t).map fun e => e.2.1).flatten

/-- One iteration of the `for file in files` loop of the first (copy)
pass of `sync_folders`: copy the source file at `rel ++ [n]` (content
`c`, mtime `m`) when the replica counterpart does not exist or is more
than 1 second older than the source (`not os.path.exists(replica_file)
or os.stat(source_file).st_mtime - os.stat(replica_file).st_mtime > 1`),
journalling the `File copied` log right after the copy.  A source file in
`bad` makes `shutil.copy2` raise. -/
def copyOneFile (bad : List (RootTag × List String)) (rel : List String)
    (n : String) (c : List Nat) (m : Int) (st : St) : St :=
  if pathExists st.fs .replica (rel ++ [n]) = false
      ∨ m - mtimeAt st.fs .replica (rel ++ [n]) > 1 then
    if (RootTag.source, rel ++ [n]) ∈ bad then st.fail .ioError
    else (st.emit (.copy2 .replica (rel ++ [n]) c m)).log (.fileCopied (rel ++ [n]))
  else st

/-- The `for file in files` loop of the copy pass over one directory
level of the source walk. -/
def copyLevelFiles (bad : List (RootTag × List String)) (rel : List String)
    (st : St) : EntList → St
  | .nil => st
  | .cons _ (.dir _) rest => copyLevelFiles bad rel st rest
  | .cons n (.file c m) rest => copyLevelFiles bad rel (copyOneFile bad rel n c m st) rest

mutual
/-- The recursive descent of the copy pass' `os.walk(source_path)` over
the entries of one source directory: file entries were already handled at
their own level, each subdirectory is visited in order. -/
def copyWalk (bad : List (RootTag × List String)) (rel : List String)
    (st : St) : EntList → St
  | .nil => st
  | .cons n nd rest => copyWalk bad rel (copyWalkNode bad (rel ++ [n]) st nd) rest

/-- Visiting one source entry during the copy pass: nothing for a file,
and for a directory the `os.makedirs(replica_root, exist_ok=True)` of its
replica counterpart, then its files, then its subdirectories. -/
def copyWalkNode (bad : List (RootTag × List String)) (rel : List String)
    (st : St) : Node → St
  | .file _ _ => st
  | .dir es => copyWalk bad rel (copyLevelFiles bad rel (doMakedirs st rel) es) es
end

/-- The whole copy pass of `sync_folders`: `os.walk` of a source root
that is a regular file yields nothing; otherwise the root directory is
visited first (creating the replica root if needed), then the descent. -/
def syncCopyPass (bad : List (RootTag × List String)) (st : St) : St :=
  match st.fs.src with
  | .file _ _ => st
  | .dir es => copyWalk bad [] (copyLevelFiles bad [] (doMakedirs st []) es) es

/-- The second (deletion) pass of `sync_folders`, iterating over the walk
of the replica captured at the start of the pass (only files of already
visited directories are removed, so the walk is unaffected): each replica
file whose source counterpart does not exist (`os.path.exists`) is
removed, with its `File removed` log. -/
def deleteLoop (st : St) : List (List String × List Nat × Int) → St
  | [] => st
  | (p, _, _) :: rest =>
      let st2 := if pathExists st.fs .source p then st
                 else (st.emit (.removeFile .replica p)).log (.fileRemoved p)
      deleteLoop st2 rest

/-- Count of `shutil.copy2` operations in a journal — used to model the
`new_files_created` flag of `sync_folders`. -/
def countCopies (ops : List Op) : Nat :=
  ops.countP fun op => match op with | .copy2 _ _ _ _ => true | _ => false

/-- `sync_folders(source_path, replica_path)`: copy pass, deletion pass,
and the `Sync complete` log when at least one file was copied
(`new_files_created`). -/
def syncFolders (bad : List (RootTag × List String)) (st : St) : St :=
  if countCopies (deleteLoop (syncCopyPass bad st)
        (optWalk (syncCopyPass bad st).fs.rep)).ops > countCopies st.ops then
    (deleteLoop (syncCopyPass bad st)
      (optWalk (syncCopyPass bad st).fs.rep)).log .syncCompleteLogged
  else
    deleteLoop (syncCopyPass bad st) (optWalk (syncCopyPass bad st).fs.rep)

/-- The first loop of `check_for_events` over `os.listdir(source_path)`:
for each top-level regular file of the source, either a `new_file` event
(name absent from `os.listdir(replica_path)` — which raises
`FileNotFoundError` when the replica root is missing) or, when the
source mtime is strictly greater than the replica mtime, a
`file_modified` event; each detected event is logged.  Returns the
`new_file` names, the `file_modified` names and the logs, in scan
order. -/
def scanSourceLoop (fs : FS) : EntList → Except Err (List String × List String × List LogEvent)
  | .nil => .ok ([], [], [])
  | .cons _ (.dir _) rest => scanSourceLoop fs rest
  | .cons n (.file _ sm) rest =>
      match fs.rep with
      | none => .error .fileNotFound
      | some (.file _ _) => .error .ioError
      | some (.dir repEs) =>
          if n ∈ repEs.names then
            if sm > mtimeAt fs .replica [n] then
              (scanSourceLoop fs rest).map fun (nf, md, lgs) =>
                (nf, n :: md, .fileModifiedDetected n :: lgs)
            else scanSourceLoop fs rest
          else
            (scanSourceLoop fs rest).map fun (nf, md, lgs) =>
              (n :: nf, md, .newFileDetected n :: lgs)

/-- The second loop of `check_for_events` over `os.listdir(replica_path)`:
each top-level regular file of the replica whose name is absent from the
source listing becomes a `file_removed` event (no log at this point). -/
def scanReplicaLoop (srcNames : List String) : EntList → List String
  | .nil => []
  | .cons _ (.dir _) rest => scanReplicaLoop srcNames rest
  | .cons n (.file _ _) rest =>
      if n ∈ srcNames then scanReplicaLoop srcNames rest
      else n :: scanReplicaLoop srcNames rest

/-- The event-detection part of `check_for_events`: both scan loops.
Only reads the filesystem; raises `FileNotFoundError` when the replica
root is missing (either inside the first loop at the first top-level
source file, or at the second loop's `os.listdir`). -/
def scanEvents (fs : FS) : Except Err (Events × List LogEvent) :=
  match fs.src with
  | .file _ _ => .error .ioError
  | .dir srcEs =>
      match scanSourceLoop fs srcEs with
      | .error e => .error e
      | .ok (nf, md, lgs) =>
          match fs.rep with
          | none => .error .fileNotFound
          | some (.file _ _) => .error .ioError
          | some (.dir repEs) =>
              .ok (⟨nf, md, scanReplicaLoop srcEs.names repEs⟩, lgs)

/-- `check_for_events(source_path, replica_path)`: scan both roots; when
any event was detected, run `sync_folders` and log the source hash. -/
def checkForEvents (bad : List (RootTag × List String)) (st : St) : St :=
  match st.err with
  | some _ => st
  | none =>
      match scanEvents st.fs with
      | .error e => st.fail e
      | .ok (ev, lgs) =>
          if ev.isEmpty then st.logMany lgs
          else
            match getFolderHash bad .source
                ((syncFolders bad (st.logMany lgs)).fs.tree .source) with
            | .error e => (syncFolders bad (st.logMany lgs)).fail e
            | .ok h => (syncFolders bad (st.logMany lgs)).log (.sourceHashLogged h)

/-- The body of the fallback recopy loop of the main `while True` loop,
iterating over the walk of the source: for each source file, remove the
existing replica counterpart if any, create its parent directories, and
`shutil.copyfile` it — the copy carries the content but gets `now` (the
time of copying) as its mtime, since `copyfile` does not preserve
metadata.  No logging takes place.  A source file in `bad` makes
`shutil.copyfile` raise. -/
def fallbackLoop (bad : List (RootTag × List String)) (now : Int)
    (st : St) : List (List String × List Nat × Int) → St
  | [] => st
  | (p, c, _) :: rest =>
      fallbackLoop bad now
        (if (RootTag.source, p) ∈ bad then
          (doMakedirs
            (if pathExists st.fs .replica p then st.emit (.removeFile .replica p) else st)
            p.dropLast).fail .ioError
        else
          (doMakedirs
            (if pathExists st.fs .replica p then st.emit (.removeFile .replica p) else st)
            p.dropLast).emit (.copyfile .replica p c now))
        rest

/-- The hash-mismatch fallback pass (`if source_hash != replica_hash`
body of the main loop). -/
def fallbackPass (bad : List (RootTag × List String)) (now : Int) (st : St) : St :=
  fallbackLoop bad now st (walkFiles st.fs.src)

/-- One iteration of the program's main loop — one reconciliation cycle:
`check_for_events`, then both whole-tree hashes, then the fallback recopy
pass when they differ, then the `Folders synchronized` log.  `now` is the
wall-clock time stamped by `shutil.copyfile` onto fallback copies. -/
def runCycle (bad : List (RootTag × List String)) (now : Int) (fs : FS) : St :=
  match (checkForEvents bad (St.init fs)).err with
  | some _ => checkForEvents bad (St.init fs)
  | none =>
      match getFolderHash bad .source ((checkForEvents bad (St.init fs)).fs.tree .source),
            getFolderHash bad .replica ((checkForEvents bad (St.init fs)).fs.tree .replica) with
      | .ok hs, .ok hr =>
          (if hs ≠ hr then fallbackPass bad now (checkForEvents bad (St.init fs))
           else checkForEvents bad (St.init fs)).log .foldersSynchronized
      | .error e, _ => (checkForEvents bad (St.init fs)).fail e
      | _, .error e => (checkForEvents bad (St.init fs)).fail e

/-- Whether a journalled operation targets the replica root. -/
def Op.targetsReplica (op : Op) : Bool := op.rootTag == RootTag.replica

/-- Count of log events that identify a mutating filesystem action
(`File copied` / `File removed`). -/
def countMutationLogs (logs : List LogEvent) : Nat :=
  logs.countP fun e =>
    match e with
    | .fileCopied _ => true
    | .fileRemoved _ => true
    | _ => false

/-! Concrete inputs used by the per-claim evaluations below. -/

/-- C1 failing input: the source holds one empty directory `d`; the
replica holds `d` containing the file `f` (one byte `2`, mtime 0). -/
def fsOnlyNested : FS :=
  ⟨.dir (.cons "d" (.dir .nil) .nil),
   some (.dir (.cons "d" (.dir (.cons "f" (.file [2] 0) .nil)) .nil))⟩

/-- C2 failing input, part 1: same shape as `fsOnlyNested` (a file
present only in a replica subdirectory). -/
def fsStaleNested : FS :=
  ⟨.dir (.cons "d" (.dir .nil) .nil),
   some (.dir (.cons "d" (.dir (.cons "f" (.file [2] 0) .nil)) .nil))⟩

/-- C2 failing input, part 2: an empty directory `e` present only in the
replica. -/
def fsStaleDir : FS :=
  ⟨.dir .nil, some (.dir (.cons "e" (.dir .nil) .nil))⟩

/-- C3 counterexample input: source and replica agree on the top-level
file `a`, but the replica additionally holds `d/f` — every cycle's
fallback pass then removes and recopies `a`. -/
def fsRepeating : FS :=
  ⟨.dir (.cons "a" (.file [1] 0) .nil),
   some (.dir (.cons "a" (.file [1] 0)
          (.cons "d" (.dir (.cons "f" (.file [2] 0) .nil)) .nil)))⟩

/-- C3 witness input: source and replica are identical single-file
trees. -/
def fsIdentical : FS :=
  ⟨.dir (.cons "a" (.file [1] 0) .nil),
   some (.dir (.cons "a" (.file [1] 0) .nil))⟩

/-- C4 counterexample input: a one-file source and a non-existent
replica root. -/
def fsNoReplica : FS :=
  ⟨.dir (.cons "a" (.file [1] 0) .nil), none⟩

/-- C6 counterexample input: source and replica each hold top-level `a`
with equal mtimes but different content, so only the fallback pass
recopies it. -/
def fsContentDrift : FS :=
  ⟨.dir (.cons "a" (.file [1] 0) .nil),
   some (.dir (.cons "a" (.file [2] 0) .nil))⟩

/-- C7 counterexample input: a two-file source and an empty replica. -/
def fsTwoFiles : FS :=
  ⟨.dir (.cons "a" (.file [1] 0) (.cons "b" (.file [2] 0) .nil)),
   some (.dir .nil)⟩

/-- C8 failing input: same shape as `fsRepeating` (the fallback pass
performs unlogged mutations on it). -/
def fsSilentFallback : FS :=
  ⟨.dir (.cons "a" (.file [1] 0) .nil),
   some (.dir (.cons "a" (.file [1] 0)
          (.cons "d" (.dir (.cons "f" (.file [2] 0) .nil)) .nil)))⟩

/-- C10 tree 1: one top-level file `a` with bytes `[1, 2]` plus an empty
directory `e`. -/
def treeFlat : Node :=
  .dir (.cons "a" (.file [1, 2] 5) (.cons "e" (.dir .nil) .nil))

/-- C10 tree 2: file `z` with byte `[1]` and a subdirectory `d` holding
file `w` with byte `[2]` — same walk-order byte stream as `treeFlat`,
different names, placement and directories. -/
def treeSplit : Node :=
  .dir (.cons "z" (.file [1] 0)
    (.cons "d" (.dir (.cons "w" (.file [2] 0) .nil)) .nil))

/-- Invariant for claim C9: the source tree is untouched and every
journalled operation targets the replica root. -/
def SrcIntact (σ : Node) (st : St) : Prop :=
  st.fs.src = σ ∧ st.ops.all Op.targetsReplica = true

/-! Helper lemmas about the hash accumulation. -/

theorem foldl_append_eq (L : List (List Nat)) (acc : List Nat) :
    L.foldl (fun s ch => s ++ ch) acc = acc ++ L.flatten := by
  induction L generalizing acc with
  | nil => simp
  | cons x xs ih => simp [List.foldl_cons, ih, List.append_assoc]

theorem readChunksAux_flatten :
    ∀ (n : Nat) (l : List Nat), l.length ≤ n → (readChunksAux n l).flatten = l := by
  intro n
  induction n with
  | zero =>
      intro l hl
      rw [List.length_eq_zero.mp (Nat.le_zero.mp hl)]
      simp [readChunksAux]
  | succ n ih =>
      intro l hl
      match l with
      | [] => simp [readChunksAux]
      | x :: xs =>
          rw [readChunksAux]
          have hlen : ((x :: xs).drop 4096).length ≤ n := by
            rw [List.length_drop]
            simp only [List.length_cons] at hl ⊢
            omega
          rw [List.flatten_cons, ih _ hlen, List.take_append_drop]

theorem readChunks_flatten (l : List Nat) : (readChunks l).flatten = l :=
  readChunksAux_flatten l.length l le_rfl

theorem hashLoop_nil (r : RootTag) :
    ∀ (files : List (List String × List Nat × Int)) (acc : List Nat),
      hashLoop [] r acc files = .ok (acc ++ (files.map fun e => e.2.1).flatten) := by
  intro files
  induction files with
  | nil => intro acc; simp [hashLoop]
  | cons f rest ih =>
      intro acc
      obtain ⟨p, c, m⟩ := f
      rw [hashLoop]
      simp only [List.mem_nil_iff, if_false, ih, foldl_append_eq, readChunks_flatten,
        List.map_cons, List.flatten_cons, List.append_assoc]

theorem getFolderHash_nil (r : RootTag) (o : Option Node) :
    getFolderHash [] r o = .ok (((optWalk o).map fun e => e.2.1).flatten) := by
  rw [getFolderHash, hashLoop_nil]
  simp

theorem getFolderHash_contentStream (r : RootTag) (t : Node) :
    getFolderHash [] r (some t) = .ok (contentStream t) := by
  rw [getFolderHash_nil]
  rfl

/-- C10: the whole-tree digest computed by `get_folder_hash` depends only
on the concatenation of the file contents in walk order — two trees with
the same walk-order byte stream get the same digest — and digest equality
therefore does not imply that the trees are structurally identical:
`treeFlat` and `treeSplit` differ in file names, file placement and the
presence of an empty directory, yet share the digest. -/
theorem C10_digest_only_depends_on_stream :
    (∀ t1 t2 : Node, contentStream t1 = contentStream t2 →
      getFolderHash [] .source (some t1) = getFolderHash [] .source (some t2))
    ∧ (∃ t1 t2 : Node, t1 ≠ t2 ∧
      getFolderHash [] .source (some t1) = getFolderHash [] .source (some t2)) := by
  constructor
  · intro t1 t2 h
    rw [getFolderHash_contentStream, getFolderHash_contentStream, h]
  · exact ⟨treeFlat, treeSplit, by decide, rfl⟩

/-- Witness for C10 at concrete trees: `treeFlat` and `treeSplit` have
the same walk-order stream, hence the same digest. -/
theorem C10_digest_only_depends_on_stream_witness :
    getFolderHash [] .source (some treeFlat) = getFolderHash [] .source (some treeSplit) :=
  C10_digest_only_depends_on_stream.1 treeFlat treeSplit rfl

/-- C1 fails on the code: on `fsOnlyNested` (replica-only file `d/f`,
no top-level files anywhere) the cycle completes without error, yet the
whole-tree digests afterwards are the streams `[]` (source) and `[2]`
(replica): `check_for_events` scans only top-level files so
`sync_folders` never runs, and the fallback pass copies but never
deletes. -/
theorem C1_cycle_does_not_converge :
    (runCycle [] 5 fsOnlyNested).err = none
    ∧ getFolderHash [] .source ((runCycle [] 5 fsOnlyNested).fs.tree .source) = .ok []
    ∧ getFolderHash [] .replica ((runCycle [] 5 fsOnlyNested).fs.tree .replica) = .ok [2]
    ∧ ([] : List Nat) ≠ [2] :=
  ⟨rfl, rfl, rfl, by decide⟩

/-- C2 fails on the code: after one full, error-free cycle the
replica-only file `d/f` of `fsStaleNested` is still present (the
top-level-only event scan found nothing, so the deletion pass never ran,
and the fallback pass never deletes), and the replica-only empty
directory `e` of `fsStaleDir` is still present (no code path removes
directories); both cycles performed zero operations. -/
theorem C2_stale_entries_survive :
    repAt (runCycle [] 5 fsStaleNested) ["d", "f"] = some (.file [2] 0)
    ∧ (runCycle [] 5 fsStaleNested).ops = []
    ∧ (runCycle [] 5 fsStaleNested).err = none
    ∧ repAt (runCycle [] 5 fsStaleDir) ["e"] = some (.dir .nil)
    ∧ (runCycle [] 5 fsStaleDir).ops = []
    ∧ (runCycle [] 5 fsStaleDir).err = none :=
  ⟨rfl, rfl, rfl, rfl, rfl, rfl⟩

/-- C8 fails on the code: on `fsSilentFallback` the cycle performs two
mutating actions (the fallback pass removes and recopies `a`) but emits
not a single `File copied` / `File removed` log event — the fallback
recopy loop does no logging at all. -/
theorem C8_fallback_mutations_unlogged :
    (runCycle [] 7 fsSilentFallback).ops =
      [.removeFile .replica ["a"], .copyfile .replica ["a"] [1] 7]
    ∧ countMutationLogs (runCycle [] 7 fsSilentFallback).logs = 0
    ∧ (runCycle [] 7 fsSilentFallback).err = none :=
  ⟨rfl, rfl, rfl⟩

/-- C3 counterexample: on `fsRepeating` the second of two back-to-back
cycles (no external change in between) again performs a removal and a
recopy — the operation list of the second run is not empty. -/
theorem C3_counterexample :
    (runCycle [] 7 (runCycle [] 7 fsRepeating).fs).ops =
      [.removeFile .replica ["a"], .copyfile .replica ["a"] [1] 7]
    ∧ ([Op.removeFile .replica ["a"], .copyfile .replica ["a"] [1] 7] : List Op) ≠ [] :=
  ⟨rfl, by decide⟩

/-- C4 counterexample: with a missing replica root the cycle raises
`FileNotFoundError` (from `os.listdir(replica_path)` inside
`check_for_events`) — the replica root is not created, nothing is
copied, and no bootstrap happens. -/
theorem C4_counterexample :
    (runCycle [] 0 fsNoReplica).err = some .fileNotFound
    ∧ (runCycle [] 0 fsNoReplica).fs.rep = none
    ∧ (runCycle [] 0 fsNoReplica).ops = [] :=
  ⟨rfl, rfl, rfl⟩

/-- C6 counterexample: on `fsContentDrift` only the fallback pass runs;
its `shutil.copyfile` copy carries the content `[1]` but the replica
copy's mtime is the copy time 99, not the source file's mtime 0. -/
theorem C6_counterexample :
    repAt (runCycle [] 99 fsContentDrift) ["a"] = some (.file [1] 99)
    ∧ (99 : Int) ≠ 0 :=
  ⟨rfl, by decide⟩

/-- C7 counterexample: on `fsTwoFiles` with the read of source file `a`
failing, `sync_folders` aborts with the uncaught exception: the
independent copy of `b` is never executed (the replica stays empty and
the journal records no operation), instead of the failure being recorded
and the cycle continuing. -/
theorem C7_counterexample :
    (syncFolders [(.source, ["a"])] (St.init fsTwoFiles)).err = some .ioError
    ∧ repAt (syncFolders [(.source, ["a"])] (St.init fsTwoFiles)) ["b"] = none
    ∧ (syncFolders [(.source, ["a"])] (St.init fsTwoFiles)).ops = [] :=
  ⟨rfl, rfl, rfl⟩

theorem scanSourceLoop_noRep (s : Node) :
    ∀ es : EntList, scanSourceLoop ⟨s, none⟩ es = .ok ([], [], [])
      ∨ scanSourceLoop ⟨s, none⟩ es = .error .fileNotFound
  | .nil => Or.inl rfl
  | .cons _ (.dir _) rest => by
      rw [scanSourceLoop]
      exact scanSourceLoop_noRep s rest
  | .cons _ (.file _ _) _ => Or.inr rfl

theorem scanEvents_noRep (es : EntList) :
    scanEvents ⟨.dir es, none⟩ = .error .fileNotFound := by
  rcases scanSourceLoop_noRep (.dir es) es with h | h <;> simp [scanEvents, h]

/-- C4 amended: a missing replica root is not treated as an empty
snapshot — the cycle raises `FileNotFoundError` from
`os.listdir(replica_path)` inside `check_for_events` and aborts before
performing or logging anything; the replica root is never created. -/
theorem C4_amended (es : EntList) (now : Int) (bad : List (RootTag × List String)) :
    (runCycle bad now ⟨.dir es, none⟩).err = some .fileNotFound
    ∧ (runCycle bad now ⟨.dir es, none⟩).ops = []
    ∧ (runCycle bad now ⟨.dir es, none⟩).logs = []
    ∧ (runCycle bad now ⟨.dir es, none⟩).fs = ⟨.dir es, none⟩ := by
  have h : runCycle bad now ⟨.dir es, none⟩ =
      { fs := ⟨.dir es, none⟩, ops := [], logs := [], err := some .fileNotFound } := by
    rw [runCycle, checkForEvents]
    simp only [St.init, scanEvents_noRep es, St.fail]
  rw [h]
  exact ⟨rfl, rfl, rfl, rfl⟩

/-- C3 amended: the second run's operation list is empty when, at the
start of that run, the event scan detects no top-level file event and the
two whole-tree digests already agree — in that case the run mutates
nothing at all.  (Without those conditions idempotence fails:
`C3_counterexample` exhibits trees on which every run keeps removing and
recopying the same file.) -/
theorem C3_amended (fs : FS) (now : Int)
    (h1 : scanEvents fs = .ok (⟨[], [], []⟩, []))
    (h2 : getFolderHash [] .source (fs.tree .source)
        = getFolderHash [] .replica (fs.tree .replica)) :
    (runCycle [] now fs).ops = [] ∧ (runCycle [] now fs).fs = fs := by
  have hchk : checkForEvents [] (St.init fs) = St.init fs := by
    rw [checkForEvents]
    simp only [St.init, h1, St.logMany, List.foldl_nil, Events.isEmpty]
    rfl
  rw [runCycle, hchk]
  rw [getFolderHash_nil, getFolderHash_nil] at h2
  simp only [St.init, FS.tree] at h2 ⊢
  rw [getFolderHash_nil, getFolderHash_nil]
  simp only [Except.ok.injEq] at h2
  simp [h2, St.log, St.init]

/-- Witness for C3 amended at a concrete input: identical one-file trees
make the second condition hold, and the run performs no operation. -/
theorem C3_amended_witness :
    (runCycle [] 3 fsIdentical).ops = [] ∧ (runCycle [] 3 fsIdentical).fs = fsIdentical :=
  C3_amended fsIdentical 3 rfl rfl

/-- C5: for a source file whose replica counterpart exists (a file with
mtime `rm`), the per-file body of the targeted sync pass performs the
copy exactly when the source mtime exceeds the replica mtime by more than
1 second, and otherwise leaves the state untouched — in particular a
counterpart within the 1-second tolerance window is not recopied. -/
theorem C5_staleness_rule (st : St) (rel : List String) (n : String)
    (c c' : List Nat) (sm rm : Int)
    (hrep : repAt st (rel ++ [n]) = some (.file c' rm)) :
    copyOneFile [] rel n c sm st =
      if sm - rm > 1 then
        (st.emit (.copy2 .replica (rel ++ [n]) c sm)).log (.fileCopied (rel ++ [n]))
      else st := by
  obtain ⟨t, hfr, hat⟩ : ∃ t, st.fs.rep = some t
      ∧ t.atPath (rel ++ [n]) = some (.file c' rm) := by
    unfold repAt at hrep
    cases hfr : st.fs.rep with
    | none => rw [hfr] at hrep; exact Option.noConfusion hrep
    | some t => rw [hfr] at hrep; exact ⟨t, rfl, hrep⟩
  have hex : pathExists st.fs .replica (rel ++ [n]) = true := by
    simp [pathExists, FS.tree, hfr, hat]
  have hmt : mtimeAt st.fs .replica (rel ++ [n]) = rm := by
    simp [mtimeAt, FS.tree, hfr, hat]
  unfold copyOneFile
  simp only [hex, hmt]
  by_cases hc : sm - rm > 1 <;> simp [hc]

/-- Witness for C5 at a concrete input: the replica counterpart of `a`
has mtime 0, the source file has mtime 5, so the file is copied. -/
theorem C5_staleness_rule_witness :
    copyOneFile [] [] "a" [1] 5 (St.init fsContentDrift) =
      if (5 : Int) - 0 > 1 then
        ((St.init fsContentDrift).emit (.copy2 .replica ["a"] [1] 5)).log (.fileCopied ["a"])
      else St.init fsContentDrift :=
  C5_staleness_rule (St.init fsContentDrift) [] "a" [1] [2] 5 0 rfl

/-- C6 amended: a copy performed by the targeted pass (`shutil.copy2`)
places the full content in the replica with the source's mtime preserved,
while a copy performed by the hash-mismatch fallback pass
(`shutil.copyfile`) places the full content but stamps the copy time
`now` as the replica file's mtime instead of the source's. -/
theorem C6_amended (c : List Nat) (sm now : Int) :
    repAt (syncFolders []
        (St.init ⟨.dir (.cons "x" (.file c sm) .nil), some (.dir .nil)⟩)) ["x"]
      = some (.file c sm)
    ∧ repAt (fallbackPass [] now
        (St.init ⟨.dir (.cons "x" (.file c sm) .nil), some (.dir .nil)⟩)) ["x"]
      = some (.file c now) :=
  ⟨rfl, rfl⟩

/-- C7 amended: the code has no error handling — when the read of source
file `a` fails during the copy pass, `sync_folders` aborts with the
uncaught exception and the remaining independent copy of `b` is never
executed (no warning is recorded); likewise a failing read during the
`get_folder_hash` walk aborts the whole walk with the exception instead
of skipping the entry. -/
theorem C7_amended (ca cb : List Nat) (ma mb : Int) :
    (syncFolders [(.source, ["a"])] (St.init
        ⟨.dir (.cons "a" (.file ca ma) (.cons "b" (.file cb mb) .nil)),
         some (.dir .nil)⟩)).err = some .ioError
    ∧ repAt (syncFolders [(.source, ["a"])] (St.init
        ⟨.dir (.cons "a" (.file ca ma) (.cons "b" (.file cb mb) .nil)),
         some (.dir .nil)⟩)) ["b"] = none
    ∧ getFolderHash [(.source, ["a"])] .source
        (some (.dir (.cons "a" (.file ca ma) (.cons "b" (.file cb mb) .nil))))
      = .error .ioError :=
  ⟨rfl, rfl, rfl⟩

/-! Lemmas for claim C9: every pass preserves the source tree and emits
only replica-rooted operations. -/

theorem targetsReplica_eq {op : Op} (h : op.targetsReplica = true) :
    op.rootTag = .replica := by
  simpa [Op.targetsReplica] using h

theorem map_setTree_src {fs fs2 : FS} {e : Except Err Node}
    (h : e.map (fs.setTree .replica) = .ok fs2) : fs2.src = fs.src := by
  cases e with
  | ok v =>
      simp only [Except.map, Except.ok.injEq] at h
      rw [← h]
      rfl
  | error e => simp [Except.map] at h

theorem applyOp_replica_src {op : Op} (hop : op.rootTag = .replica) {fs fs2 : FS}
    (hap : applyOp op fs = .ok fs2) : fs2.src = fs.src := by
  cases op with
  | makeDir r p =>
      cases r
      · exact RootTag.noConfusion hop
      · have hap2 : (match fs.rep with
            | none =>
                if p = [] then Except.ok (fs.setTree RootTag.replica (Node.dir EntList.nil))
                else Except.error Err.fileNotFound
            | some t => (t.mkdirAt p).map (fs.setTree RootTag.replica)) = Except.ok fs2 := hap
        cases hr : fs.rep with
        | none =>
            rw [hr] at hap2
            have hap3 : (if p = [] then
                  Except.ok (fs.setTree RootTag.replica (Node.dir EntList.nil))
                else Except.error Err.fileNotFound) = Except.ok fs2 := hap2
            split at hap3
            · simp only [Except.ok.injEq] at hap3
              rw [← hap3]
              rfl
            · exact absurd hap3 (by simp)
        | some t =>
            rw [hr] at hap2
            exact map_setTree_src (show (t.mkdirAt p).map (fs.setTree RootTag.replica)
              = Except.ok fs2 from hap2)
  | copy2 r p c m =>
      cases r
      · exact RootTag.noConfusion hop
      · have hap2 : (match fs.rep with
            | none => Except.error Err.fileNotFound
            | some t => (t.writeFileAt p c m).map (fs.setTree RootTag.replica))
            = Except.ok fs2 := hap
        cases hr : fs.rep with
        | none =>
            rw [hr] at hap2
            exact absurd (show Except.error Err.fileNotFound = Except.ok fs2 from hap2)
              (by simp)
        | some t =>
            rw [hr] at hap2
            exact map_setTree_src (show (t.writeFileAt p c m).map (fs.setTree RootTag.replica)
              = Except.ok fs2 from hap2)
  | copyfile r p c m =>
      cases r
      · exact RootTag.noConfusion hop
      · have hap2 : (match fs.rep with
            | none => Except.error Err.fileNotFound
            | some t => (t.writeFileAt p c m).map (fs.setTree RootTag.replica))
            = Except.ok fs2 := hap
        cases hr : fs.rep with
        | none =>
            rw [hr] at hap2
            exact absurd (show Except.error Err.fileNotFound = Except.ok fs2 from hap2)
              (by simp)
        | some t =>
            rw [hr] at hap2
            exact map_setTree_src (show (t.writeFileAt p c m).map (fs.setTree RootTag.replica)
              = Except.ok fs2 from hap2)
  | removeFile r p =>
      cases r
      · exact RootTag.noConfusion hop
      · have hap2 : (match fs.rep with
            | none => Except.error Err.fileNotFound
            | some t => (t.removeFileAt p).map (fs.setTree RootTag.replica))
            = Except.ok fs2 := hap
        cases hr : fs.rep with
        | none =>
            rw [hr] at hap2
            exact absurd (show Except.error Err.fileNotFound = Except.ok fs2 from hap2)
              (by simp)
        | some t =>
            rw [hr] at hap2
            exact map_setTree_src (show (t.removeFileAt p).map (fs.setTree RootTag.replica)
              = Except.ok fs2 from hap2)

theorem emit_intact {σ : Node} {st : St} {op : Op} (hop : op.targetsReplica = true)
    (h : SrcIntact σ st) : SrcIntact σ (st.emit op) := by
  unfold St.emit
  split
  · exact h
  · split
    · next fs2 hap =>
        exact ⟨(applyOp_replica_src (targetsReplica_eq hop) hap).trans h.1,
          by simp [List.all_append, h.2, List.all_cons, hop]⟩
    · exact h

theorem log_intact {σ : Node} {st : St} {e : LogEvent} (h : SrcIntact σ st) :
    SrcIntact σ (st.log e) := by
  unfold St.log
  split
  · exact h
  · exact ⟨h.1, h.2⟩

theorem logMany_intact {σ : Node} :
    ∀ (es : List LogEvent) (st : St), SrcIntact σ st → SrcIntact σ (st.logMany es)
  | [], _, h => h
  | e :: rest, st, h => by
      simp only [St.logMany, List.foldl_cons]
      exact logMany_intact rest _ (log_intact h)

theorem fail_intact {σ : Node} {st : St} {e : Err} (h : SrcIntact σ st) :
    SrcIntact σ (st.fail e) := by
  unfold St.fail
  split
  · exact h
  · exact ⟨h.1, h.2⟩

theorem doMkdirsFrom_intact {σ : Node} :
    ∀ (p : List String) (st : St) (sofar : List String),
      SrcIntact σ st → SrcIntact σ (doMkdirsFrom st sofar p)
  | [], _, _, h => h
  | x :: xs, st, sofar, h => by
      simp only [doMkdirsFrom]
      refine doMkdirsFrom_intact xs _ _ ?_
      split
      · exact h
      · exact emit_intact rfl h

theorem doMakedirs_intact {σ : Node} (st : St) (p : List String)
    (h : SrcIntact σ st) : SrcIntact σ (doMakedirs st p) := by
  unfold doMakedirs
  refine doMkdirsFrom_intact p _ [] ?_
  split
  · exact emit_intact rfl h
  · exact h

theorem copyOneFile_intact {σ : Node} (bad : List (RootTag × List String))
    (rel : List String) (n : String) (c : List Nat) (m : Int) (st : St)
    (h : SrcIntact σ st) : SrcIntact σ (copyOneFile bad rel n c m st) := by
  unfold copyOneFile
  split
  · split
    · exact fail_intact h
    · exact log_intact (emit_intact rfl h)
  · exact h

theorem copyLevelFiles_intact {σ : Node} (bad : List (RootTag × List String))
    (rel : List String) :
    ∀ (es : EntList) (st : St), SrcIntact σ st → SrcIntact σ (copyLevelFiles bad rel st es)
  | .nil, _, h => h
  | .cons _ (.dir _) rest, st, h => by
      simp only [copyLevelFiles]
      exact copyLevelFiles_intact bad rel rest st h
  | .cons n (.file c m) rest, st, h => by
      simp only [copyLevelFiles]
      exact copyLevelFiles_intact bad rel rest _ (copyOneFile_intact bad rel n c m st h)

mutual
theorem copyWalk_intact {σ : Node} (bad : List (RootTag × List String)) :
    ∀ (es : EntList) (rel : List String) (st : St),
      SrcIntact σ st → SrcIntact σ (copyWalk bad rel st es)
  | .nil, _, _, h => h
  | .cons n nd rest, rel, st, h => by
      simp only [copyWalk]
      exact copyWalk_intact bad rest rel _ (copyWalkNode_intact bad nd (rel ++ [n]) st h)

theorem copyWalkNode_intact {σ : Node} (bad : List (RootTag × List String)) :
    ∀ (nd : Node) (rel : List String) (st : St),
      SrcIntact σ st → SrcIntact σ (copyWalkNode bad rel st nd)
  | .file _ _, _, _, h => h
  | .dir es, rel, st, h => by
      simp only [copyWalkNode]
      exact copyWalk_intact bad es rel _
        (copyLevelFiles_intact bad rel es _ (doMakedirs_intact st rel h))
end

theorem syncCopyPass_intact {σ : Node} (bad : List (RootTag × List String)) (st : St)
    (h : SrcIntact σ st) : SrcIntact σ (syncCopyPass bad st) := by
  unfold syncCopyPass
  split
  · exact h
  · exact copyWalk_intact bad _ [] _
      (copyLevelFiles_intact bad [] _ _ (doMakedirs_intact st [] h))

theorem deleteLoop_intact {σ : Node} :
    ∀ (l : List (List String × List Nat × Int)) (st : St),
      SrcIntact σ st → SrcIntact σ (deleteLoop st l)
  | [], _, h => h
  | (_, _, _) :: rest, st, h => by
      simp only [deleteLoop]
      refine deleteLoop_intact rest _ ?_
      split
      · exact h
      · exact log_intact (emit_intact rfl h)

theorem syncFolders_intact {σ : Node} (bad : List (RootTag × List String)) (st : St)
    (h : SrcIntact σ st) : SrcIntact σ (syncFolders bad st) := by
  unfold syncFolders
  split
  · exact log_intact (deleteLoop_intact _ _ (syncCopyPass_intact bad st h))
  · exact deleteLoop_intact _ _ (syncCopyPass_intact bad st h)

theorem checkForEvents_intact {σ : Node} (bad : List (RootTag × List String)) (st : St)
    (h : SrcIntact σ st) : SrcIntact σ (checkForEvents bad st) := by
  unfold checkForEvents
  split
  · exact h
  · split
    · exact fail_intact h
    · split
      · exact logMany_intact _ _ h
      · split
        · exact fail_intact (syncFolders_intact bad _ (logMany_intact _ _ h))
        · exact log_intact (syncFolders_intact bad _ (logMany_intact _ _ h))

theorem fallbackLoop_intact {σ : Node} (bad : List (RootTag × List String)) (now : Int) :
    ∀ (l : List (List String × List Nat × Int)) (st : St),
      SrcIntact σ st → SrcIntact σ (fallbackLoop bad now st l)
  | [], _, h => h
  | (p, c, _) :: rest, st, h => by
      simp only [fallbackLoop]
      refine fallbackLoop_intact bad now rest _ ?_
      have h1 : SrcIntact σ
          (if pathExists st.fs .replica p then st.emit (.removeFile .replica p) else st) := by
        split
        · exact emit_intact rfl h
        · exact h
      split
      · exact fail_intact (doMakedirs_intact _ p.dropLast h1)
      · exact emit_intact rfl (doMakedirs_intact _ p.dropLast h1)

theorem fallbackPass_intact {σ : Node} (bad : List (RootTag × List String))
    (now : Int) (st : St) (h : SrcIntact σ st) : SrcIntact σ (fallbackPass bad now st) := by
  unfold fallbackPass
  exact fallbackLoop_intact bad now _ st h

theorem runCycle_intact (bad : List (RootTag × List String)) (now : Int) (fs : FS) :
    SrcIntact fs.src (runCycle bad now fs) := by
  have h1 : SrcIntact fs.src (checkForEvents bad (St.init fs)) :=
    checkForEvents_intact bad (St.init fs) ⟨rfl, rfl⟩
  unfold runCycle
  split
  · exact h1
  · split
    · refine log_intact ?_
      split
      · exact fallbackPass_intact bad now _ h1
      · exact h1
    · exact fail_intact h1
    · exact fail_intact h1

/-- C9: one reconciliation cycle never modifies the source tree — the
source root is unchanged after the cycle — and every journalled mutating
operation (directory creation, copy, removal, including the fallback
pass) targets a path under the replica root. -/
theorem C9_source_never_modified (fs : FS) (now : Int)
    (bad : List (RootTag × List String)) :
    (runCycle bad now fs).fs.src = fs.src
    ∧ (runCycle bad now fs).ops.all Op.targetsReplica = true :=
  ⟨(runCycle_intact bad now fs).1, (runCycle_intact bad now fs).2⟩

end FolderSync
